import Mathlib

/-!
Formal model of the IronDumbo asynchronous BFT atomic-broadcast core.

This file gives a shallow embedding, in Lean 4, of the Rust sources of the
IronDumbo repository: the quorum bookkeeping (`quorum_info.rs`), the Bracha
reliable-broadcast instance (`reliable_broadcast.rs`), the asynchronous
binary-agreement round and instance (`async_bin_agreement_round.rs`,
`async_bin_agreement.rs`, `pending_messages.rs`), the Dumbo tolerance
constants (`dumbo1/protocol.rs`) and the per-epoch orchestrator
(`dumbo1/epoch.rs`).  Rust `usize` values are modelled as `Nat`,
`HashSet`s as duplicate-free lists with membership-based insertion,
`LinkedHashMap`s as association lists, and `Vec`/`VecDeque` as lists.
Cryptographic externals (threshold signatures and hashing) are abstracted
as explicit function parameters.  A Rust `panic!`/`todo!`/`unreachable!`
(and a failed `expect`) is modelled by returning `Except.error .panic`.
-/

deriving instance DecidableEq for Except

namespace IronDumbo

/-- Node identity: opaque integer (Rust `NodeId(u32)`). -/
abbrev NodeId := Nat

/-- Cryptographic digest, abstracted to an opaque value (Rust `Digest`). -/
abbrev Digest := Nat

/-- A stored network message: the header's `from` field plus the payload
(Rust `StoredMessage<M>`; only `header.from()` and the payload are read
by the core). -/
structure StoredMessage (α : Type) where
  sender : NodeId
  msg : α
deriving DecidableEq, Repr

/-! ## Set-as-list and association-list helpers

Rust `HashSet<T>::insert` returns whether the element was newly inserted;
`len` is the number of distinct elements.  We model a `HashSet` as the
duplicate-free list of its elements in insertion order. -/

/-- `HashSet::insert`: returns the updated set and whether the element was new. -/
def hsInsert [DecidableEq α] (s : List α) (a : α) : List α × Bool :=
  if a ∈ s then (s, false) else (s ++ [a], true)

/-- Membership-based list subset test (`HashSet::is_superset` viewpoint:
`subsetB a b = true` iff every element of `a` is an element of `b`). -/
def subsetB [DecidableEq α] (a b : List α) : Bool :=
  a.all (fun x => x ∈ b)

/-- Set equality of two lists (Rust `HashSet == HashSet`). -/
def setEqB [DecidableEq α] (a b : List α) : Bool :=
  subsetB a b && subsetB b a

/-- Association-list lookup (Rust `LinkedHashMap::get`). -/
def alGet [DecidableEq κ] (m : List (κ × α)) (k : κ) : Option α :=
  (m.find? (fun p => p.1 = k)).map Prod.snd

/-- Association-list update-or-append (Rust `LinkedHashMap::entry(k)` then
assigning the value; a missing key is appended at the end). -/
def alSet [DecidableEq κ] (m : List (κ × α)) (k : κ) (v : α) : List (κ × α) :=
  match m with
  | [] => [(k, v)]
  | p :: rest => if p.1 = k then (k, v) :: rest else p :: alSet rest k v

/-! ## QuorumInfo (`quorum_info/quorum_info.rs`) -/

/-- Immutable fault model and membership for one epoch
(Rust `QuorumInfo { f, quorum_size, quorum_members }`). -/
structure QuorumInfo where
  f : Nat
  quorum_size : Nat
  quorum_members : List NodeId
deriving DecidableEq, Repr

/-- `QuorumInfo::new(n, f, quorum_members)`.  The Rust constructor asserts
`n > 0 && f <= (n - 1) / 3` (a failed assert panics, modelled as `none`)
and stores `quorum_size = n - f`.  No condition on `quorum_members` is
checked. -/
def QuorumInfo.new (n : Nat) (f : Nat) (quorum_members : List NodeId) :
    Option QuorumInfo :=
  if 0 < n ∧ f ≤ (n - 1) / 3 then
    some { f := f, quorum_size := n - f, quorum_members := quorum_members }
  else
    none

/-- `QuorumInfo::is_member`. -/
def QuorumInfo.is_member (q : QuorumInfo) (node_id : NodeId) : Bool :=
  q.quorum_members.contains node_id

/-! ## Dumbo tolerance constants (`dumbo1/protocol.rs`,
`impl OrderProtocolTolerance for Dumbo`) -/

/-- `Dumbo::get_n_for_f(f) = 3 * f + 1`. -/
def get_n_for_f (f : Nat) : Nat := 3 * f + 1

/-- `Dumbo::get_quorum_for_n(n) = (n - 1) / 2`. -/
def get_quorum_for_n (n : Nat) : Nat := (n - 1) / 2

/-- `Dumbo::get_f_for_n(n) = (n - 1) / 3`. -/
def get_f_for_n (n : Nat) : Nat := (n - 1) / 3

/-! ## Reliable broadcast (`reliable_broadcast/reliable_broadcast.rs`)

The instance is generic over the request payload `ρ` (Rust `RQ`).  The
network send-capability is modelled as a function
`net : RBCMessage ρ → Except (List NodeId) Unit` (Rust
`ReliableBroadcastSendNode::broadcast` returns `Result<(), Vec<NodeId>>`);
the instance additionally reports the list of broadcast calls it made, so
that emissions are observable in theorems.  The Rust code only logs a
broadcast error (`warn!`) and continues, which the model mirrors by
discarding the value of `net`. -/

/-- Rust enum `ReliableBroadcastState`. -/
inductive RBCState where
  | Init
  | Proposed
  | Echoed
  | Ready
deriving DecidableEq, Repr

/-- Rust enum `ReliableBroadcastMessage<RQ>`. -/
inductive RBCMessage (ρ : Type) where
  | Send (messages : List (StoredMessage ρ)) (digest : Digest)
  | Echo (digest : Digest)
  | Ready (digest : Digest)
deriving DecidableEq, Repr

/-- Rust struct `MessageTracking`. -/
structure MessageTracking where
  received_echoes : List NodeId
  received_readies : List NodeId
  sent_echo : Bool
  sent_ready : Bool
deriving DecidableEq, Repr

/-- `MessageTracking::default()`. -/
def MessageTracking.default : MessageTracking :=
  { received_echoes := [], received_readies := [],
    sent_echo := false, sent_ready := false }

/-- `MessageTracking::handle_received_echo` (`HashSet::insert`, discarding
the returned flag). -/
def MessageTracking.handle_received_echo (t : MessageTracking) (from_ : NodeId) :
    MessageTracking :=
  { t with received_echoes := (hsInsert t.received_echoes from_).1 }

/-- `MessageTracking::handle_received_ready`. -/
def MessageTracking.handle_received_ready (t : MessageTracking) (from_ : NodeId) :
    MessageTracking :=
  { t with received_readies := (hsInsert t.received_readies from_).1 }

/-- Rust struct `PendingMessages<M>` of the RBC module: two FIFO buckets
(`VecDeque`, `push_back`/`pop_front`). -/
structure RBCPendingMessages (ρ : Type) where
  echoes : List (StoredMessage (RBCMessage ρ))
  readies : List (StoredMessage (RBCMessage ρ))
deriving DecidableEq, Repr

/-- `PendingMessages::queue_message`: an `Echo` goes to the back of the
`echoes` bucket, a `Ready` to the back of the `readies` bucket.  The Rust
function declares `Send` unreachable; `process_message` indeed never
forwards a `Send` here (its second match arm catches every `Send`), so the
model only ever calls this on `Echo`/`Ready` and maps `Send` to no-op. -/
def RBCPendingMessages.queue_message (p : RBCPendingMessages ρ)
    (message : StoredMessage (RBCMessage ρ)) : RBCPendingMessages ρ :=
  match message.msg with
  | .Echo _ => { p with echoes := p.echoes ++ [message] }
  | .Ready _ => { p with readies := p.readies ++ [message] }
  | .Send _ _ => p

/-- `PendingMessages::pop_echo` (`VecDeque::pop_front`). -/
def RBCPendingMessages.pop_echo (p : RBCPendingMessages ρ) :
    Option (StoredMessage (RBCMessage ρ)) × RBCPendingMessages ρ :=
  match p.echoes with
  | [] => (none, p)
  | m :: rest => (some m, { p with echoes := rest })

/-- `PendingMessages::pop_ready` (`VecDeque::pop_front`). -/
def RBCPendingMessages.pop_ready (p : RBCPendingMessages ρ) :
    Option (StoredMessage (RBCMessage ρ)) × RBCPendingMessages ρ :=
  match p.readies with
  | [] => (none, p)
  | m :: rest => (some m, { p with readies := rest })

/-- Rust struct `ReliableBroadcastInstance<RQ>`. -/
structure ReliableBroadcastInstance (ρ : Type) where
  sender : NodeId
  quorum_info : QuorumInfo
  proposed_messages : Option (List (StoredMessage ρ) × Digest)
  message_tracking : MessageTracking
  reliable_broadcast_state : RBCState
  pending_messages : RBCPendingMessages ρ
deriving DecidableEq, Repr

/-- `ReliableBroadcastInstance::new(sender, quorum_info)`. -/
def ReliableBroadcastInstance.new (sender : NodeId) (quorum_info : QuorumInfo) :
    ReliableBroadcastInstance ρ :=
  { sender := sender
    quorum_info := quorum_info
    proposed_messages := none
    message_tracking := MessageTracking.default
    reliable_broadcast_state := .Init
    pending_messages := { echoes := [], readies := [] } }

/-- Rust enum `ReliableBroadcastResult<RQ>`. -/
inductive ReliableBroadcastResult (ρ : Type) where
  | MessageIgnored
  | MessageQueued
  | Progressed (m : StoredMessage (RBCMessage ρ))
  | Finalized
deriving DecidableEq, Repr

/-- `ReliableBroadcastInstance::get_current_digest`. -/
def ReliableBroadcastInstance.get_current_digest
    (i : ReliableBroadcastInstance ρ) : Option Digest :=
  i.proposed_messages.map Prod.snd

/-- `broadcast_echo_message`: broadcasts `Echo(digest)` to all quorum
members; a transport error is logged (`warn!`) and otherwise ignored.
Returns the emitted message (for observation in theorems). -/
def broadcast_echo_message (net : RBCMessage ρ → Except (List NodeId) Unit)
    (digest : Digest) : RBCMessage ρ :=
  let message : RBCMessage ρ := .Echo digest
  match net message with
  | .ok _ => message
  | .error _ => message

/-- `broadcast_ready_message`: as `broadcast_echo_message`, for `Ready`. -/
def broadcast_ready_message (net : RBCMessage ρ → Except (List NodeId) Unit)
    (digest : Digest) : RBCMessage ρ :=
  let message : RBCMessage ρ := .Ready digest
  match net message with
  | .ok _ => message
  | .error _ => message

/-- `ReliableBroadcastInstance::process_message`.  Returns the result, the
updated instance, and the list of broadcast calls made (in order).  The
match-arm order of the Rust code is preserved: a `Send` that fails the
first guard is `MessageIgnored`; an `Echo`/`Ready` that fails its guard
falls to the catch-all arm and is queued. -/
def ReliableBroadcastInstance.process_message [DecidableEq ρ]
    (i : ReliableBroadcastInstance ρ)
    (sys_msg : StoredMessage (RBCMessage ρ))
    (net : RBCMessage ρ → Except (List NodeId) Unit) :
    ReliableBroadcastResult ρ × ReliableBroadcastInstance ρ × List (RBCMessage ρ) :=
  match sys_msg.msg with
  | .Send messages digest =>
      if i.proposed_messages = none ∧ i.reliable_broadcast_state = .Init then
        let emitted := broadcast_echo_message net digest
        (.Progressed sys_msg,
         { i with proposed_messages := some (messages, digest)
                  reliable_broadcast_state := .Proposed },
         [emitted])
      else
        (.MessageIgnored, i, [])
  | .Echo digest =>
      if i.get_current_digest = some digest ∧
          i.reliable_broadcast_state = .Proposed then
        let tracking := i.message_tracking.handle_received_echo sys_msg.sender
        if tracking.received_echoes.length ≥
              i.quorum_info.quorum_size - i.quorum_info.f ∧
            tracking.sent_echo = false then
          let emitted := broadcast_ready_message net digest
          (.Progressed sys_msg,
           { i with message_tracking := { tracking with sent_echo := true }
                    reliable_broadcast_state := .Echoed },
           [emitted])
        else
          (.Progressed sys_msg, { i with message_tracking := tracking }, [])
      else
        (.MessageQueued,
         { i with pending_messages := i.pending_messages.queue_message sys_msg },
         [])
  | .Ready digest =>
      if i.get_current_digest = some digest ∧
          i.reliable_broadcast_state = .Echoed then
        let tracking := i.message_tracking.handle_received_ready sys_msg.sender
        if tracking.received_readies.length > 2 * i.quorum_info.f ∧
            tracking.sent_ready = false then
          (.Finalized,
           { i with message_tracking := { tracking with sent_ready := true }
                    reliable_broadcast_state := .Ready },
           [])
        else
          (.Progressed sys_msg, { i with message_tracking := tracking }, [])
      else
        (.MessageQueued,
         { i with pending_messages := i.pending_messages.queue_message sys_msg },
         [])

/-! ## ABA round (`async_bin_agreement/async_bin_agreement_round.rs`)

The round is generic over the partial-signature type `σ` and the combined
signature type `γ` (Rust `PartialSignature`, `CombinedSignature`).  The
two cryptographic externals of `perform_coin_flip` are passed as explicit
function parameters:
 * `combine : List (Nat × σ) → Except Unit γ` stands for
   `PublicKeySet::combine_signatures` (the `pub_key` field of `RoundData`;
   the error type `CombineSignatureError` carries no information the code
   reads, so it is `Unit`);
 * `hashLastByte : γ → Nat` stands for
   `hash(bincode::serialize(sig)).as_ref()[Digest::LENGTH - 1]`, the last
   byte of the hash of the serialized combined signature. -/

/-- Rust enum `AsyncBinaryAgreementState`. -/
inductive AsyncBinaryAgreementState where
  | CollectingVal
  | CollectingAux
  | CollectingConf
  | Finishing
deriving DecidableEq, Repr

/-- Rust enum `RoundDataVoteAcceptResult`. -/
inductive RoundDataVoteAcceptResult where
  | Accepted
  | BroadcastEst (b : Bool)
  | BroadcastAux (l : List Bool)
  | BroadcastConf (l : List Bool)
  | BroadcastFinalized (b : Bool)
  | Ignored
  | AlreadyAccepted
  | Queue
  | Failed (b : Bool)
  | Finalized (b : Bool)
deriving DecidableEq, Repr

/-- Rust struct `ValRoundData`: votes per estimate plus the set of
estimates already amplified by this node. -/
structure ValRoundData where
  received_vals : List (Bool × List NodeId)
  broadcast_estimates : List Bool
deriving DecidableEq, Repr

/-- `ValRoundData::insert_estimate`: inserts `sender` into the entry-set of
`estimate`; `Err` on a duplicate, otherwise the new count of distinct
voters for that estimate. -/
def ValRoundData.insert_estimate (d : ValRoundData) (sender : NodeId)
    (estimate : Bool) : Except Unit (Nat × ValRoundData) :=
  let entry := (alGet d.received_vals estimate).getD []
  let (entry2, fresh) := hsInsert entry sender
  if fresh then
    .ok (entry2.length, { d with received_vals := alSet d.received_vals estimate entry2 })
  else
    .error ()

/-- Rust struct `AuxRoundData`: votes per exact `Vec<bool>` of accepted
estimates (the `LinkedHashMap` key is the vector, not its set). -/
structure AuxRoundData where
  received_aux : List (List Bool × List NodeId)
deriving DecidableEq, Repr

/-- `AuxRoundData::insert_aux`. -/
def AuxRoundData.insert_aux (d : AuxRoundData) (sender : NodeId)
    (accepted_estimates : List Bool) : Except Unit (Nat × AuxRoundData) :=
  let entry := (alGet d.received_aux accepted_estimates).getD []
  let (entry2, fresh) := hsInsert entry sender
  if fresh then
    .ok (entry2.length,
         { d with received_aux := alSet d.received_aux accepted_estimates entry2 })
  else
    .error ()

/-- Rust struct `ConfRoundData`: per `Vec<bool>` of feasible values, the
map from signer to its signature share. -/
structure ConfRoundData (σ : Type) where
  received_conf : List (List Bool × List (NodeId × σ))
deriving DecidableEq, Repr

/-- `ConfRoundData::insert_confirmation`: `Err` when the sender already
signed this exact feasible-value vector, otherwise records the share and
returns the number of distinct signers for it. -/
def ConfRoundData.insert_confirmation (d : ConfRoundData σ) (sender : NodeId)
    (feasible_values : List Bool) (sig_share : σ) :
    Except Unit (Nat × ConfRoundData σ) :=
  let entry := (alGet d.received_conf feasible_values).getD []
  if (entry.find? (fun p => p.1 = sender)).isSome then
    .error ()
  else
    let entry2 := entry ++ [(sender, sig_share)]
    .ok (entry2.length,
         { d with received_conf := alSet d.received_conf feasible_values entry2 })

/-- `ConfRoundData::get_signatures_for_values`. -/
def ConfRoundData.get_signatures_for_values (d : ConfRoundData σ)
    (values : List Bool) : List (NodeId × σ) :=
  (alGet d.received_conf values).getD []

/-- Rust struct `FinishRoundData`. -/
structure FinishRoundData where
  received_finish : List (Bool × List NodeId)
  broadcast_finish : List Bool
deriving DecidableEq, Repr

/-- `FinishRoundData::insert_finish`. -/
def FinishRoundData.insert_finish (d : FinishRoundData) (sender : NodeId)
    (final_value : Bool) : Except Unit (Nat × FinishRoundData) :=
  let entry := (alGet d.received_finish final_value).getD []
  let (entry2, fresh) := hsInsert entry sender
  if fresh then
    .ok (entry2.length,
         { d with received_finish := alSet d.received_finish final_value entry2 })
  else
    .error ()

/-- `FinishRoundData::try_register_broadcast`
(`HashSet::insert` on `broadcast_finish`). -/
def FinishRoundData.try_register_broadcast (d : FinishRoundData)
    (final_value : Bool) : FinishRoundData × Bool :=
  let (s, fresh) := hsInsert d.broadcast_finish final_value
  ({ d with broadcast_finish := s }, fresh)

/-- Rust struct `RoundData`.  The `pub_key : PublicKeySet` field is
represented by the `combine` parameter of `accept_confirmation`. -/
structure RoundData (σ : Type) where
  state : AsyncBinaryAgreementState
  f : Nat
  estimate : Bool
  values_r : List Bool
  val_data : ValRoundData
  aux_round_data : AuxRoundData
  conf_round_data : ConfRoundData σ
  finish_round_data : FinishRoundData
deriving DecidableEq, Repr

/-- `RoundData::new(f, pub_key_set, estimate)`. -/
def RoundData.new (f : Nat) (estimate : Bool) : RoundData σ :=
  { state := .CollectingVal
    f := f
    estimate := estimate
    values_r := []
    val_data := { received_vals := [], broadcast_estimates := [] }
    aux_round_data := { received_aux := [] }
    conf_round_data := { received_conf := [] }
    finish_round_data := { received_finish := [], broadcast_finish := [] } }

/-- `RoundData::insert_estimate` (the private helper behind
`accept_estimate`). -/
def RoundData.insert_estimate (rd : RoundData σ) (sender : NodeId)
    (estimate : Bool) : RoundDataVoteAcceptResult × RoundData σ :=
  match rd.val_data.insert_estimate sender estimate with
  | .error _ => (.AlreadyAccepted, rd)
  | .ok (current_votes, vd) =>
    if current_votes ≥ 2 * rd.f + 1 then
      let values2 := (hsInsert rd.values_r estimate).1
      (.BroadcastAux values2,
       { rd with values_r := values2, val_data := vd, state := .CollectingAux })
    else
      let (bcast, fresh) := hsInsert vd.broadcast_estimates estimate
      if current_votes ≥ rd.f + 1 ∧ fresh then
        (.BroadcastEst estimate,
         { rd with val_data := { vd with broadcast_estimates := bcast } })
      else
        (.Accepted, { rd with val_data := vd })

/-- `RoundData::accept_estimate`: only meaningful in `CollectingVal`;
any other phase ignores the vote. -/
def RoundData.accept_estimate (rd : RoundData σ) (sender : NodeId)
    (estimate : Bool) : RoundDataVoteAcceptResult × RoundData σ :=
  match rd.state with
  | .CollectingVal => rd.insert_estimate sender estimate
  | _ => (.Ignored, rd)

/-- `RoundData::insert_aux`.  The superset test converts the incoming
vector to a set first: advance when the count reaches `2f + 1` and the
vector's set is contained in (or equal to) `values_r`. -/
def RoundData.insert_aux (rd : RoundData σ) (sender : NodeId)
    (accepted_estimates : List Bool) : RoundDataVoteAcceptResult × RoundData σ :=
  match rd.aux_round_data.insert_aux sender accepted_estimates with
  | .error _ => (.AlreadyAccepted, rd)
  | .ok (vote_count, ad) =>
    if vote_count ≥ 2 * rd.f + 1 ∧
        (subsetB accepted_estimates rd.values_r ∨
          setEqB rd.values_r accepted_estimates) then
      (.BroadcastConf rd.values_r,
       { rd with aux_round_data := ad, state := .CollectingConf })
    else
      (.Accepted, { rd with aux_round_data := ad })

/-- `RoundData::accept_auxiliary`: valid in `CollectingAux`; from
`CollectingVal` the vote is queued; later phases ignore it. -/
def RoundData.accept_auxiliary (rd : RoundData σ) (sender : NodeId)
    (accepted_estimates : List Bool) : RoundDataVoteAcceptResult × RoundData σ :=
  match rd.state with
  | .CollectingAux => rd.insert_aux sender accepted_estimates
  | .CollectingVal => (.Queue, rd)
  | .Finishing => (.Ignored, rd)
  | .CollectingConf => (.Ignored, rd)

/-- `RoundData::perform_coin_flip`.  Combines the collected shares over
the round's coin message, hashes the combined signature, and derives
`coin = (last_byte % 2 == 0)`.  Mirrors the Rust `Result`: a
`CombineSignatureError` propagates as `.error`. -/
def RoundData.perform_coin_flip (rd : RoundData σ)
    (combine : List (Nat × σ) → Except Unit γ) (hashLastByte : γ → Nat)
    (winning_set : List Bool) (sig_shares : List (NodeId × σ)) :
    Except Unit (RoundDataVoteAcceptResult × RoundData σ) :=
  match combine (sig_shares.map (fun p => (p.1, p.2))) with
  | .error e => .error e
  | .ok combined_signature =>
    let coin_flip_result : Bool := hashLastByte combined_signature % 2 == 0
    if winning_set.length ≠ 1 then
      .ok (.Failed coin_flip_result, rd)
    else
      if winning_set.headD false == coin_flip_result then
        let rd2 := { rd with state := .Finishing, estimate := coin_flip_result }
        let (fd, fresh) := rd2.finish_round_data.try_register_broadcast rd2.estimate
        let rd3 := { rd2 with finish_round_data := fd }
        if fresh then
          .ok (.BroadcastFinalized rd3.estimate, rd3)
        else
          .ok (.Accepted, rd3)
      else
        .ok (.Failed (winning_set.headD false), rd)

/-- `RoundData::insert_confirmation`: record the share; when the count of
distinct signers for this exact vector reaches `2f + 1` and its set is
contained in `values_r`, flip the coin; a combine failure yields
`Failed(estimate)` (`unwrap_or_else`). -/
def RoundData.insert_confirmation (rd : RoundData σ)
    (combine : List (Nat × σ) → Except Unit γ) (hashLastByte : γ → Nat)
    (sender : NodeId) (feasible_values : List Bool) (sig_share : σ) :
    RoundDataVoteAcceptResult × RoundData σ :=
  match rd.conf_round_data.insert_confirmation sender feasible_values sig_share with
  | .error _ => (.AlreadyAccepted, rd)
  | .ok (vote_count, cd) =>
    let rd1 := { rd with conf_round_data := cd }
    if vote_count ≥ 2 * rd1.f + 1 then
      if subsetB feasible_values rd1.values_r ∨
          setEqB rd1.values_r feasible_values then
        let sig_shares := rd1.conf_round_data.get_signatures_for_values feasible_values
        match rd1.perform_coin_flip combine hashLastByte feasible_values sig_shares with
        | .ok r => r
        | .error _ => (.Failed rd1.estimate, rd1)
      else
        (.Accepted, rd1)
    else
      (.Accepted, rd1)

/-- `RoundData::accept_confirmation`: valid in `CollectingConf`; earlier
phases queue the message; `Finishing` ignores it. -/
def RoundData.accept_confirmation (rd : RoundData σ)
    (combine : List (Nat × σ) → Except Unit γ) (hashLastByte : γ → Nat)
    (sender : NodeId) (feasible_values : List Bool) (sig_share : σ) :
    RoundDataVoteAcceptResult × RoundData σ :=
  match rd.state with
  | .CollectingConf =>
      rd.insert_confirmation combine hashLastByte sender feasible_values sig_share
  | .CollectingAux => (.Queue, rd)
  | .CollectingVal => (.Queue, rd)
  | .Finishing => (.Ignored, rd)

/-- `RoundData::insert_finish`. -/
def RoundData.insert_finish (rd : RoundData σ) (sender : NodeId)
    (final_value : Bool) : RoundDataVoteAcceptResult × RoundData σ :=
  match rd.finish_round_data.insert_finish sender final_value with
  | .error _ => (.AlreadyAccepted, rd)
  | .ok (vote_count, fd) =>
    let rd1 := { rd with finish_round_data := fd }
    if vote_count ≥ 2 * rd1.f + 1 then
      (.Finalized final_value, rd1)
    else
      let (fd2, fresh) := rd1.finish_round_data.try_register_broadcast final_value
      if vote_count ≥ rd1.f + 1 ∧ fresh then
        (.BroadcastFinalized final_value, { rd1 with finish_round_data := fd2 })
      else
        (.Accepted, rd1)

/-- `RoundData::accept_finish`: valid in `Finishing`; all earlier phases
queue the message. -/
def RoundData.accept_finish (rd : RoundData σ) (sender : NodeId)
    (final_value : Bool) : RoundDataVoteAcceptResult × RoundData σ :=
  match rd.state with
  | .Finishing => rd.insert_finish sender final_value
  | _ => (.Queue, rd)

/-! ## ABA messages and pending queue
(`async_bin_agreement/messages.rs`, `pending_messages.rs`) -/

/-- Rust enum `AsyncBinaryAgreementMessageType` (the `partial_signature`
field is renamed `sig_share` here). -/
inductive AsyncBinaryAgreementMessageType (σ : Type) where
  | Val (estimate : Bool)
  | Aux (accepted_estimates : List Bool)
  | Conf (feasible_values : List Bool) (sig_share : σ)
  | Finish (value : Bool)
deriving DecidableEq, Repr

/-- Rust struct `AsyncBinaryAgreementMessage`. -/
structure AsyncBinaryAgreementMessage (σ : Type) where
  round : Nat
  message_type : AsyncBinaryAgreementMessageType σ
deriving DecidableEq, Repr

/-- Rust struct `PendingMessages` of the ABA module: a dense per-round
buffer (`VecDeque<Vec<_>>`) indexed by `round - current_round_base`. -/
structure AbaPendingMessages (σ : Type) where
  current_round_base : Nat
  per_round_messages : List (List (StoredMessage (AsyncBinaryAgreementMessage σ)))
deriving DecidableEq, Repr

/-- `PendingMessages::default()`. -/
def AbaPendingMessages.default : AbaPendingMessages σ :=
  { current_round_base := 0, per_round_messages := [] }

/-- Extends a bucket list with empty buckets until index `idx` exists
(the Rust `while self.per_round_messages.len() <= round_index { push_back(vec![]) }`:
its net effect is appending `idx + 1 - len` empty buckets). -/
def extendBuckets (buckets : List (List α)) (idx : Nat) : List (List α) :=
  buckets ++ List.replicate (idx + 1 - buckets.length) []

/-- Replaces the bucket at `idx` by `f` applied to it. -/
def modifyBucket (buckets : List (List α)) (idx : Nat) (f : List α → List α) :
    List (List α) :=
  buckets.modify f idx

/-- `PendingMessages::add_message`: a message for a round below the base is
silently dropped; otherwise it is pushed to the back (`Vec::push`) of its
round's bucket. -/
def AbaPendingMessages.add_message (p : AbaPendingMessages σ) (round : Nat)
    (message : StoredMessage (AsyncBinaryAgreementMessage σ)) :
    AbaPendingMessages σ :=
  if round < p.current_round_base then
    p
  else
    let round_index := round - p.current_round_base
    let buckets := extendBuckets p.per_round_messages round_index
    { p with per_round_messages :=
        modifyBucket buckets round_index (fun b => b ++ [message]) }

/-- `Vec::pop`: removes and returns the LAST element. -/
def vecPop (l : List α) : Option α × List α :=
  match l.reverse with
  | [] => (none, l)
  | a :: rest => (some a, rest.reverse)

/-- `PendingMessages::pop_message`: first drains every bucket strictly
below `round` (rebasing to `round`), then pops from the BACK of the front
bucket (`front_mut()?.pop()` — `Vec::pop` is LIFO). -/
def AbaPendingMessages.pop_message (p : AbaPendingMessages σ) (round : Nat) :
    Option (StoredMessage (AsyncBinaryAgreementMessage σ)) × AbaPendingMessages σ :=
  let p1 :=
    if round > p.current_round_base then
      let rounds_to_skip := round - p.current_round_base
      { p with per_round_messages := p.per_round_messages.drop rounds_to_skip,
               current_round_base := round }
    else
      p
  match p1.per_round_messages with
  | [] => (none, p1)
  | front :: rest =>
      let (popped, front2) := vecPop front
      (popped, { p1 with per_round_messages := front2 :: rest })

/-! ## ABA instance (`async_bin_agreement/async_bin_agreement.rs`)

The instance is generic over the share type `σ`.  The externals are
passed to `process_message` as parameters:
 * `net : AsyncBinaryAgreementMessage σ → Except Unit Unit` is the
   send-capability (`AsyncBinaryAgreementSendNode::broadcast_message`,
   returning `atlas_common::error::Result<()>`); the Rust code unwraps
   every broadcast with `expect`, so a transport error panics;
 * `sign_share : Nat → σ` stands for
   `threshold_key.1.partially_sign(&round.to_le_bytes())` (the
   `ThresholdKeys` private part applied to the little-endian round bytes);
 * `combine`, `hashLastByte` as for `RoundData`.

A Rust panic (`todo!`, `unreachable!`, failed `expect`) is the value
`.error .panic`. -/

/-- Marker for a Rust panic in the model. -/
inductive RustPanic where
  | panic
deriving DecidableEq, Repr

/-- Rust enum `AsyncBinaryAgreementResult` of the instance module. -/
inductive AsyncBinaryAgreementResult (σ : Type) where
  | MessageQueued
  | MessageIgnored
  | Processed (m : StoredMessage (AsyncBinaryAgreementMessage σ))
  | Decided (m : StoredMessage (AsyncBinaryAgreementMessage σ))
deriving DecidableEq, Repr

/-- Rust struct `AsyncBinaryAgreement` (the `threshold_key` pair is
represented by the `sign_share`/`combine` parameters of
`process_message`). -/
structure AsyncBinaryAgreement (σ : Type) where
  round : Nat
  input_bit : Bool
  quorum_info : QuorumInfo
  current_round : RoundData σ
  previous_rounds : List (RoundData σ)
  pending_messages : AbaPendingMessages σ
deriving DecidableEq, Repr

/-- `AsyncBinaryAgreement::new(input_bit, quorum_info, public_key_set,
threshold_key)`. -/
def AsyncBinaryAgreement.new (input_bit : Bool) (quorum_info : QuorumInfo) :
    AsyncBinaryAgreement σ :=
  { round := 0
    input_bit := input_bit
    quorum_info := quorum_info
    current_round := RoundData.new quorum_info.f input_bit
    previous_rounds := []
    pending_messages := AbaPendingMessages.default }

/-- `AsyncBinaryAgreement::advance_round(next_estimate)`. -/
def AsyncBinaryAgreement.advance_round (a : AsyncBinaryAgreement σ)
    (next_estimate : Bool) : AsyncBinaryAgreement σ :=
  { a with
      current_round := RoundData.new a.quorum_info.f next_estimate
      previous_rounds := a.previous_rounds ++ [a.current_round]
      round := a.round + 1 }

/-- `AsyncBinaryAgreement::process_val_message`.  The match arm
`RoundDataVoteAcceptResult::Finalized` of the source is modelled as
accepting any decision payload; the source's match has no arm for
`BroadcastFinalized` (modelled as a panic) — neither result is in fact
reachable from `accept_estimate`.  `BroadcastConf` is `unreachable!`.
Each broadcast is unwrapped with `expect`, so `net` returning an error
panics. -/
def AsyncBinaryAgreement.process_val_message [DecidableEq σ]
    (a : AsyncBinaryAgreement σ)
    (message : StoredMessage (AsyncBinaryAgreementMessage σ))
    (net : AsyncBinaryAgreementMessage σ → Except Unit Unit)
    (estimate : Bool) :
    Except RustPanic (AsyncBinaryAgreementResult σ × AsyncBinaryAgreement σ) :=
  let (res, round2) := a.current_round.accept_estimate message.sender estimate
  let a2 := { a with current_round := round2 }
  match res with
  | .Accepted => .ok (.Processed message, a2)
  | .Failed next_estimate => .ok (.MessageIgnored, a2.advance_round next_estimate)
  | .Finalized _ => .ok (.Decided message, a2)
  | .BroadcastEst est =>
      let est_message : AsyncBinaryAgreementMessage σ :=
        { round := a2.round, message_type := .Val est }
      match net est_message with
      | .ok _ => .ok (.Processed message, a2)
      | .error _ => .error .panic
  | .BroadcastAux accepted_estimates =>
      let est_message : AsyncBinaryAgreementMessage σ :=
        { round := a2.round, message_type := .Aux accepted_estimates }
      match net est_message with
      | .ok _ => .ok (.Processed message, a2)
      | .error _ => .error .panic
  | .Queue =>
      .ok (.MessageQueued,
           { a2 with pending_messages :=
               a2.pending_messages.add_message a2.round message })
  | .Ignored => .ok (.MessageIgnored, a2)
  | .AlreadyAccepted => .ok (.MessageIgnored, a2)
  | .BroadcastConf _ => .error .panic
  | .BroadcastFinalized _ => .error .panic

/-- `AsyncBinaryAgreement::process_aux_message`.  `BroadcastEst` and
`BroadcastAux` are `unreachable!`; the source's match again has no arm
for `BroadcastFinalized` (modelled as a panic, unreachable from
`accept_auxiliary`). -/
def AsyncBinaryAgreement.process_aux_message [DecidableEq σ]
    (a : AsyncBinaryAgreement σ)
    (message : StoredMessage (AsyncBinaryAgreementMessage σ))
    (net : AsyncBinaryAgreementMessage σ → Except Unit Unit)
    (sign_share : Nat → σ)
    (accepted_estimates : List Bool) :
    Except RustPanic (AsyncBinaryAgreementResult σ × AsyncBinaryAgreement σ) :=
  let (res, round2) := a.current_round.accept_auxiliary message.sender accepted_estimates
  let a2 := { a with current_round := round2 }
  match res with
  | .Accepted => .ok (.Processed message, a2)
  | .Failed next_estimate => .ok (.MessageIgnored, a2.advance_round next_estimate)
  | .BroadcastConf feasible_values =>
      let sig := sign_share a2.round
      let conf_message : AsyncBinaryAgreementMessage σ :=
        { round := a2.round, message_type := .Conf feasible_values sig }
      match net conf_message with
      | .ok _ => .ok (.Processed message, a2)
      | .error _ => .error .panic
  | .Finalized _ => .ok (.Decided message, a2)
  | .Ignored => .ok (.MessageIgnored, a2)
  | .AlreadyAccepted => .ok (.MessageIgnored, a2)
  | .Queue =>
      .ok (.MessageQueued,
           { a2 with pending_messages :=
               a2.pending_messages.add_message a2.round message })
  | .BroadcastEst _ => .error .panic
  | .BroadcastAux _ => .error .panic
  | .BroadcastFinalized _ => .error .panic

/-- `AsyncBinaryAgreement::process_message`.  Future-round messages are
queued, past-round messages ignored; a current-round message dispatches
on its type.  `process_conf_message` and the `Finish` arm are `todo!()`
in the source: processing a current-round `Conf` or `Finish` message
panics. -/
def AsyncBinaryAgreement.process_message [DecidableEq σ]
    (a : AsyncBinaryAgreement σ)
    (message : StoredMessage (AsyncBinaryAgreementMessage σ))
    (net : AsyncBinaryAgreementMessage σ → Except Unit Unit)
    (sign_share : Nat → σ) :
    Except RustPanic (AsyncBinaryAgreementResult σ × AsyncBinaryAgreement σ) :=
  let async_bin_message := message.msg
  if async_bin_message.round > a.round then
    .ok (.MessageQueued,
         { a with pending_messages :=
             a.pending_messages.add_message async_bin_message.round message })
  else if async_bin_message.round < a.round then
    .ok (.MessageIgnored, a)
  else
    match async_bin_message.message_type with
    | .Val estimate => a.process_val_message message net estimate
    | .Aux accepted_estimates =>
        a.process_aux_message message net sign_share accepted_estimates
    | .Conf _ _ => .error .panic
    | .Finish _ => .error .panic

/-! ## Epoch orchestrator (`dumbo1/epoch.rs`, `dumbo1/node_states.rs`,
`dumbo1/message.rs`)

`DumboRound` is generic, as in the source, over the committee-election
state `CE`, the request payload `RQ`, the value-RBC state `VR`, the
index-RBC state `IR` and the ABA state `A`, plus the corresponding
message types `CEM`, `VRM`, `IRM`, `AM` and the subprotocol error types
`CEErr`, `AErr`.  The trait methods the source dispatches through
(`CommitteeElectionProtocol`, `ReliableBroadcast`, `ABAProtocol`) are
passed as a record of functions `EpochOps`; the network handle is
already captured inside those functions, mirroring how the source wraps
it in `SendNodeWrapperRef` before delegating. -/

/-- Rust enum `CommitteeElectionResult` (`committee_election.rs`). -/
inductive CommitteeElectionResult where
  | MessageQueued
  | MessageIgnored
  | Processed
  | Decided
deriving DecidableEq, Repr

/-- Rust enum `ReliableBroadcastResult` of the `rbc.rs` trait module
(payload-free, unlike the instance-level enum). -/
inductive RbcTraitResult where
  | MessageQueued
  | MessageIgnored
  | Processed
  | Finalized
deriving DecidableEq, Repr

/-- Rust enum `AsyncBinaryAgreementResult` of the `aba.rs` trait module.
The source's `epoch.rs` matches its `Decided` variant without binding the
decision bit and instead obtains the decision from `finalize`. -/
inductive AbaTraitResult where
  | MessageQueued
  | MessageIgnored
  | Processed
  | Decided (b : Bool)
deriving DecidableEq, Repr

/-- Rust enum `CommitteeState<CE>`. -/
inductive CommitteeState (CE : Type) where
  | RunningCE (ce : CE)
  | Completed (committee : List NodeId)
deriving DecidableEq, Repr

/-- Rust enum `CommitteeNodeExecuting<VR, IR, A>` (`None` is spelled
`NoneExec` to avoid clashing with `Option.none`). -/
inductive CommitteeNodeExecuting (VR IR A : Type) where
  | NoneExec
  | RunningValueRBC (rbc : VR)
  | WaitingForRBCs
  | RunningIndexRBC (rbc : IR)
  | RunningABA (aba : A)
  | Done
deriving DecidableEq, Repr

/-- Rust enum `CommitteeNodeState<RQ>`. -/
inductive CommitteeNodeState (RQ : Type) where
  | Empty
  | ValueRBC (value : RQ)
  | IndexRBC (value : RQ) (index : Nat)
  | ABA (value : RQ) (index : Nat) (decision : Bool)
deriving DecidableEq, Repr

/-- `CommitteeNodeState::received_value`. -/
def CommitteeNodeState.received_value (_ : CommitteeNodeState RQ) (value : RQ) :
    CommitteeNodeState RQ :=
  .ValueRBC value

/-- `CommitteeNodeState::received_decision`: panics (`none`) unless the
state is `IndexRBC`. -/
def CommitteeNodeState.received_decision (s : CommitteeNodeState RQ)
    (decision : Bool) : Option (CommitteeNodeState RQ) :=
  match s with
  | .IndexRBC value index => some (.ABA value index decision)
  | _ => none

/-- Rust enum `NonCommitteeNodeExec<R>`. -/
inductive NonCommitteeNodeExec (VR : Type) where
  | RunningValueRBC (rbc : VR)
  | Completed
deriving DecidableEq, Repr

/-- Rust enum `NonCommitteeNodeState<RQ>`. -/
inductive NonCommitteeNodeState (RQ : Type) where
  | Empty
  | ValueRBC (value : RQ)
deriving DecidableEq, Repr

/-- `NonCommitteeNodeState::received_value`. -/
def NonCommitteeNodeState.received_value (_ : NonCommitteeNodeState RQ)
    (value : RQ) : NonCommitteeNodeState RQ :=
  .ValueRBC value

/-- Rust enum `NodeState<RQ, VR, IR, A>`. -/
inductive NodeState (RQ VR IR A : Type) where
  | CommitteeNode (exec : CommitteeNodeExecuting VR IR A) (st : CommitteeNodeState RQ)
  | NonCommitteeNode (exec : NonCommitteeNodeExec VR) (st : NonCommitteeNodeState RQ)
deriving DecidableEq, Repr

/-- Rust enum `CommitteeLocalState<RQ, VR, IR, A>` (`node_states.rs`). -/
inductive CommitteeLocalState (RQ VR IR A : Type) where
  | RunningValueRBC (rbc : VR)
  | CompletedValueRBC (value_rbc : RQ)
  | RunningIndexRBC (completed_value_rbc : RQ) (rbc : IR)
  | RunningABA (aba : A)
deriving DecidableEq, Repr

/-- Rust enum `NonCommitteeLocalState<RQ, R>`. -/
inductive NonCommitteeLocalState (RQ VR : Type) where
  | RunningRBC (rbc : VR)
  | Completed (completed_rbc : RQ)
deriving DecidableEq, Repr

/-- Rust enum `LocalDumboState<RQ, VR, IR, A>`. -/
inductive LocalDumboState (RQ VR IR A : Type) where
  | WaitingForCommittee
  | CommitteeMember (s : CommitteeLocalState RQ VR IR A)
  | NonCommitteeMember (s : NonCommitteeLocalState RQ VR)
deriving DecidableEq, Repr

/-- Rust enum `DumboMessageType<RBM, IRBM, AM, CEM>` (`message.rs`). -/
inductive DumboMessageType (VRM IRM AM CEM : Type) where
  | ReliableBroadcast (owner : NodeId) (m : VRM)
  | IndexReliableBroadcast (owner : NodeId) (m : IRM)
  | AsyncBinaryAgreement (owner : NodeId) (m : AM)
  | CommitteeElectionMessage (m : CEM)
deriving DecidableEq, Repr

/-- Rust enum `EpochResult`. -/
inductive EpochResult where
  | MessageIgnored
  | MessageQueued
  | MessageProcessed
  | Finalized
deriving DecidableEq, Repr

/-- Errors propagated by `DumboRound::process_message` via `?`, plus the
panic marker for its `todo!`/`unreachable!` arms. -/
inductive EpochError (CEErr AErr : Type) where
  | ceError (e : CEErr)
  | abaError (e : AErr)
  | panic
deriving DecidableEq, Repr

/-- The subprotocol trait methods `DumboRound` dispatches through, with
the network handle already applied. -/
structure EpochOps (CE VR IR A RQ VRM AM CEM CEErr AErr : Type) where
  ceNew : QuorumInfo → Nat → CE
  ceProcess : CE → StoredMessage CEM → Except CEErr (CommitteeElectionResult × CE)
  ceFinalize : CE → Except CEErr (List NodeId)
  vrProcess : VR → StoredMessage VRM → RbcTraitResult × VR
  vrFinalize : VR → RQ
  abaProcess : A → StoredMessage AM → Except AErr (AbaTraitResult × A)
  abaFinalize : A → Except AErr Bool

/-- Rust struct `DumboRound<CE, RQ, VR, IR, A>`. -/
structure DumboRound (CE RQ VR IR A : Type) where
  epoch_num : Nat
  node_id : NodeId
  node_states : List (NodeId × NodeState RQ VR IR A)
  local_state : LocalDumboState RQ VR IR A
  committee_election : CommitteeState CE
  quorum_info : QuorumInfo
deriving DecidableEq, Repr

/-- `DumboRound::new(epoch_num, node_id, quorum_info)`: the committee
election is started with `required_committee = f + 1`, `node_states` is
empty and the local state is `WaitingForCommittee`. -/
def DumboRound.new (ops : EpochOps CE VR IR A RQ VRM AM CEM CEErr AErr)
    (epoch_num : Nat) (node_id : NodeId) (quorum_info : QuorumInfo) :
    DumboRound CE RQ VR IR A :=
  { epoch_num := epoch_num
    node_id := node_id
    node_states := []
    local_state := .WaitingForCommittee
    committee_election := .RunningCE (ops.ceNew quorum_info (quorum_info.f + 1))
    quorum_info := quorum_info }

/-- `DumboRound::process_message`, branch `CommitteeElectionMessage`.
On `Decided` the running CE is finalized and the committee installed;
nothing else of the round state changes. -/
def DumboRound.process_ce_message (ops : EpochOps CE VR IR A RQ VRM AM CEM CEErr AErr)
    (dr : DumboRound CE RQ VR IR A) (sender : NodeId) (ce_msg : CEM) :
    Except (EpochError CEErr AErr) (EpochResult × DumboRound CE RQ VR IR A) :=
  match dr.committee_election with
  | .Completed _ => .ok (.MessageIgnored, dr)
  | .RunningCE ce =>
    match ops.ceProcess ce { sender := sender, msg := ce_msg } with
    | .error e => .error (.ceError e)
    | .ok (committee_result, ce2) =>
      match committee_result with
      | .MessageQueued =>
          .ok (.MessageQueued, { dr with committee_election := .RunningCE ce2 })
      | .MessageIgnored =>
          .ok (.MessageIgnored, { dr with committee_election := .RunningCE ce2 })
      | .Processed =>
          .ok (.MessageProcessed, { dr with committee_election := .RunningCE ce2 })
      | .Decided =>
        match ops.ceFinalize ce2 with
        | .error e => .error (.ceError e)
        | .ok committee =>
            .ok (.MessageProcessed,
                 { dr with committee_election := .Completed committee })

/-- Helper: store the (mutated) per-node state back into the map, as the
source's `&mut`-access to `self.node_states` does in place. -/
def DumboRound.setNode (dr : DumboRound CE RQ VR IR A) (owner : NodeId)
    (ns : NodeState RQ VR IR A) : DumboRound CE RQ VR IR A :=
  { dr with node_states := alSet dr.node_states owner ns }

/-- `DumboRound::process_message`, branch `ReliableBroadcast(owner, m)`:
an owner with no entry in `node_states` is `MessageIgnored`; a node not
currently running its value RBC is `MessageIgnored`; otherwise the RBC
instance processes the message and, on `Finalized`, its payload is
materialized into the node's value slot. -/
def DumboRound.process_rbc_message (ops : EpochOps CE VR IR A RQ VRM AM CEM CEErr AErr)
    (dr : DumboRound CE RQ VR IR A) (sender : NodeId) (owner : NodeId)
    (rbc_msg : VRM) :
    Except (EpochError CEErr AErr) (EpochResult × DumboRound CE RQ VR IR A) :=
  match alGet dr.node_states owner with
  | none => .ok (.MessageIgnored, dr)
  | some node_state =>
    match node_state with
    | .CommitteeNode (.RunningValueRBC rbc) st =>
      let (result, rbc2) := ops.vrProcess rbc { sender := sender, msg := rbc_msg }
      match result with
      | .MessageQueued =>
          .ok (.MessageQueued,
               dr.setNode owner (.CommitteeNode (.RunningValueRBC rbc2) st))
      | .MessageIgnored =>
          .ok (.MessageIgnored,
               dr.setNode owner (.CommitteeNode (.RunningValueRBC rbc2) st))
      | .Processed =>
          .ok (.MessageProcessed,
               dr.setNode owner (.CommitteeNode (.RunningValueRBC rbc2) st))
      | .Finalized =>
          let value_rbc := ops.vrFinalize rbc2
          .ok (.MessageProcessed,
               dr.setNode owner
                 (.CommitteeNode .WaitingForRBCs (st.received_value value_rbc)))
    | .NonCommitteeNode (.RunningValueRBC rbc) st =>
      let (result, rbc2) := ops.vrProcess rbc { sender := sender, msg := rbc_msg }
      match result with
      | .MessageQueued =>
          .ok (.MessageQueued,
               dr.setNode owner (.NonCommitteeNode (.RunningValueRBC rbc2) st))
      | .MessageIgnored =>
          .ok (.MessageIgnored,
               dr.setNode owner (.NonCommitteeNode (.RunningValueRBC rbc2) st))
      | .Processed =>
          .ok (.MessageProcessed,
               dr.setNode owner (.NonCommitteeNode (.RunningValueRBC rbc2) st))
      | .Finalized =>
          let completed_rbc := ops.vrFinalize rbc2
          .ok (.MessageProcessed,
               dr.setNode owner
                 (.NonCommitteeNode .Completed (st.received_value completed_rbc)))
    | _ => .ok (.MessageIgnored, dr)

/-- `DumboRound::process_message`, branch `AsyncBinaryAgreement(owner, m)`:
missing owner → `MessageIgnored`; non-committee owner → `MessageIgnored`;
committee owner in `Done` → `MessageIgnored`; committee owner not yet in
`RunningABA` hits a `todo!()` (panic).  On `Decided`, the ABA is
finalized and the decision recorded (panicking unless the value slot is
in `IndexRBC`). -/
def DumboRound.process_aba_message (ops : EpochOps CE VR IR A RQ VRM AM CEM CEErr AErr)
    (dr : DumboRound CE RQ VR IR A) (sender : NodeId) (owner : NodeId)
    (aba_msg : AM) :
    Except (EpochError CEErr AErr) (EpochResult × DumboRound CE RQ VR IR A) :=
  match alGet dr.node_states owner with
  | none => .ok (.MessageIgnored, dr)
  | some node_state =>
    match node_state with
    | .NonCommitteeNode _ _ => .ok (.MessageIgnored, dr)
    | .CommitteeNode exec st =>
      match exec with
      | .Done => .ok (.MessageIgnored, dr)
      | .RunningABA aba =>
        match ops.abaProcess aba { sender := sender, msg := aba_msg } with
        | .error e => .error (.abaError e)
        | .ok (result, aba2) =>
          match result with
          | .MessageQueued =>
              .ok (.MessageQueued,
                   dr.setNode owner (.CommitteeNode (.RunningABA aba2) st))
          | .MessageIgnored =>
              .ok (.MessageIgnored,
                   dr.setNode owner (.CommitteeNode (.RunningABA aba2) st))
          | .Processed =>
              .ok (.MessageProcessed,
                   dr.setNode owner (.CommitteeNode (.RunningABA aba2) st))
          | .Decided _ =>
            match ops.abaFinalize aba2 with
            | .error e => .error (.abaError e)
            | .ok protocol_result =>
              match st.received_decision protocol_result with
              | none => .error .panic
              | some st2 =>
                  .ok (.MessageProcessed,
                       dr.setNode owner (.CommitteeNode .Done st2))
      | _ => .error .panic

/-- `DumboRound::process_message`: dispatch on the four Dumbo message
types.  The `IndexReliableBroadcast` branch is `todo!()` in the source. -/
def DumboRound.process_message (ops : EpochOps CE VR IR A RQ VRM AM CEM CEErr AErr)
    (dr : DumboRound CE RQ VR IR A)
    (message : StoredMessage (DumboMessageType VRM IRM AM CEM)) :
    Except (EpochError CEErr AErr) (EpochResult × DumboRound CE RQ VR IR A) :=
  match message.msg with
  | .CommitteeElectionMessage ce_msg =>
      dr.process_ce_message ops message.sender ce_msg
  | .ReliableBroadcast owner rbc_msg =>
      dr.process_rbc_message ops message.sender owner rbc_msg
  | .IndexReliableBroadcast _ _ => .error .panic
  | .AsyncBinaryAgreement owner aba_msg =>
      dr.process_aba_message ops message.sender owner aba_msg

/-! ## Concrete instances (N = 4, f = 1) used by the theorems below -/

/-- `QuorumInfo::new(4, 1, vec![0, 1, 2, 3])` (the value it returns). -/
def qi4 : QuorumInfo := { f := 1, quorum_size := 3, quorum_members := [0, 1, 2, 3] }

/-- A transport that always succeeds (RBC flavour). -/
def netOkR : RBCMessage Nat → Except (List NodeId) Unit := fun _ => .ok ()

/-- A transport whose `broadcast` always fails (RBC flavour). -/
def netFailR : RBCMessage Nat → Except (List NodeId) Unit := fun _ => .error [0]

/-- A transport that always succeeds (ABA flavour). -/
def netOkA : AsyncBinaryAgreementMessage Nat → Except Unit Unit := fun _ => .ok ()

/-- A transport whose `broadcast_message` always fails (ABA flavour). -/
def netFailA : AsyncBinaryAgreementMessage Nat → Except Unit Unit := fun _ => .error ()

/-- A concrete signing function (shares modelled as `Nat`). -/
def signN : Nat → Nat := fun _ => 0

/-- The N = 4 RBC instance for sender 0 after processing `Send([], 7)`. -/
def rbcAfterSend : ReliableBroadcastInstance Nat :=
  ((ReliableBroadcastInstance.new 0 qi4).process_message
    { sender := 0, msg := .Send [] 7 } netOkR).2.1

/-- … after additionally processing `Echo(7)` from node 1. -/
def rbcAfterEcho1 : ReliableBroadcastInstance Nat :=
  (rbcAfterSend.process_message { sender := 1, msg := .Echo 7 } netOkR).2.1

/-- The full step of processing `Echo(7)` from node 2 (the second distinct
echo) on `rbcAfterEcho1`. -/
def rbcEcho2Step :
    ReliableBroadcastResult Nat × ReliableBroadcastInstance Nat × List (RBCMessage Nat) :=
  rbcAfterEcho1.process_message { sender := 2, msg := .Echo 7 } netOkR

/-- A fresh N = 4 ABA instance with input bit `true` (shares are `Nat`). -/
def abaInst : AsyncBinaryAgreement Nat := AsyncBinaryAgreement.new true qi4

/-- `abaInst` after processing `Val(true)` from node 1 (one vote: below the
`f + 1` amplification threshold, so no broadcast happens). -/
def abaA1 : AsyncBinaryAgreement Nat :=
  match abaInst.process_message { sender := 1, msg := { round := 0, message_type := .Val true } }
      netOkA signN with
  | .ok (_, a) => a
  | .error _ => abaInst

/-- Two concrete ABA messages for the pending-queue claims. -/
def pmsg1 : StoredMessage (AsyncBinaryAgreementMessage Nat) :=
  { sender := 1, msg := { round := 0, message_type := .Val true } }

/-- Second concrete ABA message (distinct from `pmsg1`). -/
def pmsg2 : StoredMessage (AsyncBinaryAgreementMessage Nat) :=
  { sender := 2, msg := { round := 0, message_type := .Val false } }

/-- A concrete `RoundData` in `CollectingConf` with `values_r = {true}` and
two shares already collected for the vector `[true]` (f = 1). -/
def rdConf : RoundData Nat :=
  { state := .CollectingConf
    f := 1
    estimate := true
    values_r := [true]
    val_data := { received_vals := [], broadcast_estimates := [] }
    aux_round_data := { received_aux := [] }
    conf_round_data := { received_conf := [([true], [(0, 0), (1, 0)])] }
    finish_round_data := { received_finish := [], broadcast_finish := [] } }

/-- A concrete combine function that always succeeds (combined signature
modelled as `Nat`). -/
def combineN : List (Nat × Nat) → Except Unit Nat := fun _ => .ok 0

/-- A concrete hash-last-byte function returning an even byte, so the
derived coin is `true`. -/
def hashEven : Nat → Nat := fun _ => 0

/-- Concrete epoch subprotocol operations for the witness instantiations:
`CE` is a counter, every other state is `Unit`. -/
def opsW : EpochOps Nat Unit Unit Unit Unit Unit Unit Unit Unit Unit :=
  { ceNew := fun _ _ => 0
    ceProcess := fun ce _ => .ok (.Decided, ce + 1)
    ceFinalize := fun _ => .ok [0, 1]
    vrProcess := fun vr _ => (.Processed, vr)
    vrFinalize := fun _ => ()
    abaProcess := fun aba _ => .ok (.Processed, aba)
    abaFinalize := fun _ => .ok true }

/-- A fresh epoch (round) for the witness instantiations: empty
`node_states`, committee election running. -/
def drW : DumboRound Nat Unit Unit Unit Unit := DumboRound.new opsW 1 0 qi4

/-! ## Phase orders and execution sequences (for the invariant claims) -/

/-- Position of an RBC phase in the order
`Init → Proposed → Echoed → Ready` (§4.3 of the spec). -/
def rbcIdx : RBCState → Nat
  | .Init => 0
  | .Proposed => 1
  | .Echoed => 2
  | .Ready => 3

/-- Position of an ABA round phase in the order
`CollectingVal → CollectingAux → CollectingConf → Finishing` (§4.4). -/
def abaIdx : AsyncBinaryAgreementState → Nat
  | .CollectingVal => 0
  | .CollectingAux => 1
  | .CollectingConf => 2
  | .Finishing => 3

/-- One vote-acceptance call on an ABA round, with its arguments
(the `conf` step carries the crypto parameters of
`accept_confirmation`). -/
inductive RoundStep (σ γ : Type) where
  | est (sender : NodeId) (b : Bool)
  | aux (sender : NodeId) (l : List Bool)
  | conf (sender : NodeId) (F : List Bool) (sig : σ)
      (combine : List (Nat × σ) → Except Unit γ) (hashLastByte : γ → Nat)
  | fin (sender : NodeId) (b : Bool)

/-- Apply one vote-acceptance call to a round (state part). -/
def RoundData.apply_step {σ γ : Type} [DecidableEq σ] (rd : RoundData σ) :
    RoundStep σ γ → RoundData σ
  | .est s b => (rd.accept_estimate s b).2
  | .aux s l => (rd.accept_auxiliary s l).2
  | .conf s F sig c h => (rd.accept_confirmation c h s F sig).2
  | .fin s b => (rd.accept_finish s b).2

/-- Run a sequence of vote-acceptance calls on a round. -/
def RoundData.run_steps {σ γ : Type} [DecidableEq σ] (rd : RoundData σ) :
    List (RoundStep σ γ) → RoundData σ
  | [] => rd
  | s :: ss => (rd.apply_step s).run_steps ss

/-- Run a sequence of `process_message` calls on an RBC instance
(state part). -/
def ReliableBroadcastInstance.run {ρ : Type} [DecidableEq ρ]
    (i : ReliableBroadcastInstance ρ)
    (net : RBCMessage ρ → Except (List NodeId) Unit) :
    List (StoredMessage (RBCMessage ρ)) → ReliableBroadcastInstance ρ
  | [] => i
  | m :: ms => ((i.process_message m net).2.1).run net ms

/-! ## Theorems -/

/-- Helper: an RBC echo broadcast emits `Echo d` regardless of the
transport's answer (the error is only logged). -/
theorem broadcast_echo_message_eq {ρ : Type}
    (net : RBCMessage ρ → Except (List NodeId) Unit) (d : Digest) :
    broadcast_echo_message net d = (.Echo d : RBCMessage ρ) := by
  unfold broadcast_echo_message
  cases h : net (.Echo d) <;> simp [h]

/-- Helper: an RBC ready broadcast emits `Ready d` regardless of the
transport's answer. -/
theorem broadcast_ready_message_eq {ρ : Type}
    (net : RBCMessage ρ → Except (List NodeId) Unit) (d : Digest) :
    broadcast_ready_message net d = (.Ready d : RBCMessage ρ) := by
  unfold broadcast_ready_message
  cases h : net (.Ready d) <;> simp [h]

/-- Helper: recording an echo does not change the `sent_echo` flag. -/
theorem handle_received_echo_sent_echo (t : MessageTracking) (p : NodeId) :
    (t.handle_received_echo p).sent_echo = t.sent_echo := rfl

/-- C6 (amended): `n_for_f f = 3f + 1`, `f_for_n (3f + 1) = f` and
`quorum_for_n n = (n - 1) / 2` all hold; but at `n = 3f + 1` the quorum
query returns `⌊3f / 2⌋`, which differs from `2f + 1` for every `f ≥ 0`. -/
theorem tolerance_queries_spec (f n : Nat) :
    get_n_for_f f = 3 * f + 1 ∧
    get_f_for_n (3 * f + 1) = f ∧
    get_quorum_for_n n = (n - 1) / 2 ∧
    get_quorum_for_n (3 * f + 1) = 3 * f / 2 ∧
    get_quorum_for_n (3 * f + 1) ≠ 2 * f + 1 := by
  refine ⟨rfl, ?_, rfl, ?_, ?_⟩
  · show (3 * f + 1 - 1) / 3 = f
    omega
  · show (3 * f + 1 - 1) / 2 = 3 * f / 2
    omega
  · show (3 * f + 1 - 1) / 2 ≠ 2 * f + 1
    omega

/-- C6 counterexample: at `f = 1` (so `n = 3f + 1 = 4`) the code's
`get_quorum_for_n` returns `1`, not `2f + 1 = 3` as the claim states. -/
theorem tolerance_quorum_cex :
    get_n_for_f 1 = 4 ∧ get_quorum_for_n 4 = 1 ∧ get_quorum_for_n 4 ≠ 2 * 1 + 1 := by
  decide

/-- C7 (amended): `QuorumInfo::new` succeeds exactly when `n ≥ 3f + 1`
(the Rust assertion `n > 0 && f <= (n-1)/3` is equivalent); the length of
`members` is never checked; on success `quorum_size = n - f` and the
members are stored as given. -/
theorem quorum_info_new_spec (n f : Nat) (members : List NodeId) :
    QuorumInfo.new n f members =
      (if 3 * f + 1 ≤ n then
        some { f := f, quorum_size := n - f, quorum_members := members }
      else none) := by
  unfold QuorumInfo.new
  by_cases h : 3 * f + 1 ≤ n
  · rw [if_pos (by omega), if_pos h]
  · rw [if_neg (by omega), if_neg h]

/-- C7 counterexample: `QuorumInfo::new(4, 1, vec![])` succeeds although
the member list is empty (`|members| = 0 ≠ 4 = n`), so construction does
not fail on every input violating `|members| = n`. -/
theorem quorum_info_members_unchecked_cex :
    QuorumInfo.new 4 1 [] =
      some { f := 1, quorum_size := 3, quorum_members := [] } ∧
    ([] : List NodeId).length ≠ 4 := by
  decide

/-- C1: on a fresh ABA instance (current round 0), a `Val` message is
dispatched and processed, but a current-round `Conf` or `Finish` message
hits `todo!()` (`process_conf_message` body, `Finish` match arm) and
panics instead of returning one of the documented results. -/
theorem aba_conf_finish_todo_panics :
    abaInst.round = 0 ∧
    (abaInst.process_message
        { sender := 1, msg := { round := 0, message_type := .Val true } }
        netOkA signN).toOption.isSome = true ∧
    abaInst.process_message
        { sender := 1, msg := { round := 0, message_type := .Conf [true] 0 } }
        netOkA signN = .error .panic ∧
    abaInst.process_message
        { sender := 1, msg := { round := 0, message_type := .Finish true } }
        netOkA signN = .error .panic := by
  decide

/-- C10: an epoch `ReliableBroadcast` or `AsyncBinaryAgreement` message
whose owner has no entry in `node_states` returns `MessageIgnored` and
the round state is returned completely unchanged (in particular the
message is not queued anywhere). -/
theorem epoch_unknown_owner_ignored
    {CE VR IR A RQ VRM IRM AM CEM CEErr AErr : Type}
    (ops : EpochOps CE VR IR A RQ VRM AM CEM CEErr AErr)
    (dr : DumboRound CE RQ VR IR A) (sender owner : NodeId) (rm : VRM) (am : AM)
    (h : alGet dr.node_states owner = none) :
    dr.process_message ops
        ({ sender := sender, msg := .ReliableBroadcast owner rm } :
          StoredMessage (DumboMessageType VRM IRM AM CEM)) =
      .ok (.MessageIgnored, dr) ∧
    dr.process_message ops
        ({ sender := sender, msg := .AsyncBinaryAgreement owner am } :
          StoredMessage (DumboMessageType VRM IRM AM CEM)) =
      .ok (.MessageIgnored, dr) := by
  constructor
  · show dr.process_rbc_message ops sender owner rm = _
    unfold DumboRound.process_rbc_message
    rw [h]
  · show dr.process_aba_message ops sender owner am = _
    unfold DumboRound.process_aba_message
    rw [h]

/-- C10 witness: in a fresh epoch the per-node map is empty, so an RBC
message for owner 2 is ignored and the state unchanged. -/
theorem epoch_unknown_owner_ignored_witness :
    alGet drW.node_states 2 = none ∧
    drW.process_message opsW
        ({ sender := 1, msg := .ReliableBroadcast 2 () } :
          StoredMessage (DumboMessageType Unit Unit Unit Unit)) =
      .ok (.MessageIgnored, drW) ∧
    drW.process_message opsW
        ({ sender := 1, msg := .AsyncBinaryAgreement 2 () } :
          StoredMessage (DumboMessageType Unit Unit Unit Unit)) =
      .ok (.MessageIgnored, drW) := by
  refine ⟨by decide, ?_, ?_⟩
  · exact (epoch_unknown_owner_ignored opsW drW 1 2 () () (by decide)).1
  · exact (epoch_unknown_owner_ignored opsW drW 1 2 () () (by decide)).2

/-- C4 counterexample: two messages enqueued under the same key (round 0)
of the ABA pending queue with no intervening dequeue come back newest
first: the dequeue returns `m2`, not `m1`, so the queue is not FIFO. -/
theorem aba_pending_not_fifo_cex :
    ((((AbaPendingMessages.default : AbaPendingMessages Nat).add_message 0 pmsg1).add_message
          0 pmsg2).pop_message 0).1 = some pmsg2 ∧
    pmsg1 ≠ pmsg2 := by
  decide

/-- C2 counterexample: with `n = 4`, `f = 1`, after `Send([], 7)` and two
distinct matching echoes (from nodes 1 and 2) the instance already
broadcasts `Ready(7)` and moves to `Echoed`, although `2 < n - f = 3`:
the claim's threshold `n - f` is wrong (the code uses
`quorum_size - f = n - 2f = 2`). -/
theorem rbc_echo_threshold_cex :
    rbcAfterEcho1.reliable_broadcast_state = .Proposed ∧
    rbcEcho2Step.2.1.message_tracking.received_echoes.length = 2 ∧
    2 < 4 - 1 ∧
    rbcEcho2Step.2.1.reliable_broadcast_state = .Echoed ∧
    rbcEcho2Step.2.2 = [.Ready 7] := by
  decide

/-- C2 (amended): in phase `Proposed`, on `Echo(d)` with `d` the stored
digest, the instance broadcasts `Ready(d)` and moves to `Echoed` exactly
when the number of distinct echoing nodes first reaches
`quorum_size - f = n - 2f` (and `sent_echo` was not yet set); below
`n - 2f` distinct echoes no `Ready` is broadcast and the phase stays
`Proposed`. -/
theorem rbc_echo_threshold_spec {ρ : Type} [DecidableEq ρ]
    (i : ReliableBroadcastInstance ρ)
    (net : RBCMessage ρ → Except (List NodeId) Unit) (p : NodeId) (d : Digest)
    (hP : i.reliable_broadcast_state = .Proposed)
    (hd : i.get_current_digest = some d) :
    (((i.message_tracking.handle_received_echo p).received_echoes.length ≥
          i.quorum_info.quorum_size - i.quorum_info.f ∧
        i.message_tracking.sent_echo = false) →
      (i.process_message { sender := p, msg := .Echo d } net).2.2 = [.Ready d] ∧
      (i.process_message { sender := p, msg := .Echo d } net).2.1.reliable_broadcast_state
          = .Echoed ∧
      (i.process_message { sender := p, msg := .Echo d } net).2.1.message_tracking.sent_echo
          = true ∧
      (i.process_message { sender := p, msg := .Echo d } net).1 =
        .Progressed { sender := p, msg := .Echo d }) ∧
    ((i.message_tracking.handle_received_echo p).received_echoes.length <
        i.quorum_info.quorum_size - i.quorum_info.f →
      (i.process_message { sender := p, msg := .Echo d } net).2.2 = [] ∧
      (i.process_message { sender := p, msg := .Echo d } net).2.1.reliable_broadcast_state
          = .Proposed ∧
      (i.process_message { sender := p, msg := .Echo d } net).1 =
        .Progressed { sender := p, msg := .Echo d }) := by
  simp only [ReliableBroadcastInstance.process_message]
  rw [if_pos ⟨hd, hP⟩]
  simp only [handle_received_echo_sent_echo]
  constructor
  · intro hthr
    rw [if_pos hthr]
    exact ⟨by rw [broadcast_ready_message_eq], rfl, rfl, rfl⟩
  · intro hlt
    rw [if_neg (fun hc => absurd hc.1 (by omega))]
    exact ⟨rfl, hP, rfl⟩

/-- C2 witness: applying the amended theorem at the concrete `n = 4`,
`f = 1` instance holding one prior echo: the second distinct echo meets
the `n - 2f = 2` threshold, broadcasts `Ready` and moves to `Echoed`. -/
theorem rbc_echo_threshold_spec_witness :
    (rbcAfterEcho1.message_tracking.handle_received_echo 2).received_echoes.length ≥
        rbcAfterEcho1.quorum_info.quorum_size - rbcAfterEcho1.quorum_info.f ∧
    (rbcAfterEcho1.process_message { sender := 2, msg := .Echo 7 } netOkR).2.2 =
      [.Ready 7] ∧
    (rbcAfterEcho1.process_message
        { sender := 2, msg := .Echo 7 } netOkR).2.1.reliable_broadcast_state = .Echoed := by
  have h := (rbc_echo_threshold_spec rbcAfterEcho1 netOkR 2 7 (by decide)
      (by decide)).1 (by decide)
  exact ⟨by decide, h.1, h.2.1⟩

/-- C4 (amended): the RBC per-kind buckets are FIFO — enqueues append at
the back and dequeues take the front, so messages come back in enqueue
order — but the ABA per-round buckets are LIFO: `pop_message` uses
`Vec::pop` and returns the most recently enqueued message of the round
bucket first. -/
theorem pending_queue_order_spec {ρ σ : Type} [DecidableEq ρ] [DecidableEq σ] :
    (∀ (p : RBCPendingMessages ρ) (a b : NodeId) (d1 d2 : Digest),
        ((p.queue_message { sender := a, msg := .Echo d1 }).queue_message
            { sender := b, msg := .Echo d2 }).echoes =
          p.echoes ++ [{ sender := a, msg := .Echo d1 }, { sender := b, msg := .Echo d2 }]) ∧
    (∀ (p : RBCPendingMessages ρ) (a b : NodeId) (d1 d2 : Digest),
        ((p.queue_message { sender := a, msg := .Ready d1 }).queue_message
            { sender := b, msg := .Ready d2 }).readies =
          p.readies ++ [{ sender := a, msg := .Ready d1 }, { sender := b, msg := .Ready d2 }]) ∧
    (∀ (p : RBCPendingMessages ρ), p.pop_echo.1 = p.echoes.head?) ∧
    (∀ (p : RBCPendingMessages ρ), p.pop_ready.1 = p.readies.head?) ∧
    (∀ (q : AbaPendingMessages σ) (m1 m2 : StoredMessage (AsyncBinaryAgreementMessage σ)),
        (((q.add_message q.current_round_base m1).add_message q.current_round_base m2).pop_message
            q.current_round_base).1 = some m2) := by
  refine ⟨?_, ?_, ?_, ?_, ?_⟩
  · intro p a b d1 d2
    simp [RBCPendingMessages.queue_message]
  · intro p a b d1 d2
    simp [RBCPendingMessages.queue_message]
  · intro p
    rcases p with ⟨e, r⟩
    cases e <;> rfl
  · intro p
    rcases p with ⟨e, r⟩
    cases r <;> rfl
  · intro q m1 m2
    rcases q with ⟨base, buckets⟩
    cases buckets with
    | nil =>
        simp [AbaPendingMessages.add_message, AbaPendingMessages.pop_message,
          extendBuckets, modifyBucket, vecPop, List.modify]
    | cons h t =>
        simp [AbaPendingMessages.add_message, AbaPendingMessages.pop_message,
          extendBuckets, modifyBucket, vecPop, List.modify, List.reverse_append]

/-- C5 counterexample: at the `f + 1` amplification threshold (second
`Val(true)` vote on the `n = 4, f = 1` instance) a failing transport makes
`process_val_message` panic (the code unwraps the broadcast result with
`expect`), while the same step with a working transport succeeds — so an
ABA transport error is not "logged and ignored". -/
theorem aba_broadcast_error_panics_cex :
    abaA1.process_message { sender := 2, msg := { round := 0, message_type := .Val true } }
        netFailA signN = .error .panic ∧
    (abaA1.process_message { sender := 2, msg := { round := 0, message_type := .Val true } }
        netOkA signN).toOption.isSome = true := by
  decide

/-- C5 (amended): an RBC transport-level broadcast error is logged and
ignored — `process_message` returns the same result, state and emissions
whatever the transport answers; but the ABA emissions (`Val`, `Aux`,
`Conf`) are unwrapped with `expect`, so there a transport error panics
instead of being ignored. -/
theorem transport_error_handling_spec {ρ σ : Type} [DecidableEq ρ] [DecidableEq σ] :
    (∀ (i : ReliableBroadcastInstance ρ) (m : StoredMessage (RBCMessage ρ))
        (net net' : RBCMessage ρ → Except (List NodeId) Unit),
        i.process_message m net = i.process_message m net') ∧
    (∀ (a : AsyncBinaryAgreement σ) (msg : StoredMessage (AsyncBinaryAgreementMessage σ))
        (net : AsyncBinaryAgreementMessage σ → Except Unit Unit) (est e : Bool),
        (a.current_round.accept_estimate msg.sender est).1 = .BroadcastEst e →
        (∀ m, net m = .error ()) →
        a.process_val_message msg net est = .error .panic) ∧
    (∀ (a : AsyncBinaryAgreement σ) (msg : StoredMessage (AsyncBinaryAgreementMessage σ))
        (net : AsyncBinaryAgreementMessage σ → Except Unit Unit) (est : Bool) (l : List Bool),
        (a.current_round.accept_estimate msg.sender est).1 = .BroadcastAux l →
        (∀ m, net m = .error ()) →
        a.process_val_message msg net est = .error .panic) ∧
    (∀ (a : AsyncBinaryAgreement σ) (msg : StoredMessage (AsyncBinaryAgreementMessage σ))
        (net : AsyncBinaryAgreementMessage σ → Except Unit Unit) (sg : Nat → σ)
        (accepted l : List Bool),
        (a.current_round.accept_auxiliary msg.sender accepted).1 = .BroadcastConf l →
        (∀ m, net m = .error ()) →
        a.process_aux_message msg net sg accepted = .error .panic) := by
  refine ⟨?_, ?_, ?_, ?_⟩
  · intro i m net net'
    cases hm : m.msg <;>
      simp [ReliableBroadcastInstance.process_message, hm,
        broadcast_echo_message_eq, broadcast_ready_message_eq]
  · intro a msg net est e hacc hnet
    unfold AsyncBinaryAgreement.process_val_message
    rcases hq : a.current_round.accept_estimate msg.sender est with ⟨res, rd2⟩
    rw [hq] at hacc
    simp at hacc
    subst hacc
    simp [hq, hnet]
  · intro a msg net est l hacc hnet
    unfold AsyncBinaryAgreement.process_val_message
    rcases hq : a.current_round.accept_estimate msg.sender est with ⟨res, rd2⟩
    rw [hq] at hacc
    simp at hacc
    subst hacc
    simp [hq, hnet]
  · intro a msg net sg accepted l hacc hnet
    unfold AsyncBinaryAgreement.process_aux_message
    rcases hq : a.current_round.accept_auxiliary msg.sender accepted with ⟨res, rd2⟩
    rw [hq] at hacc
    simp at hacc
    subst hacc
    simp [hq, hnet]

/-- C5 witness: the amended theorem applied at the concrete `n = 4`,
`f = 1` instance holding one `Val(true)` vote: the second vote triggers
`BroadcastEst`, and with an always-failing transport the processing
panics. -/
theorem transport_error_handling_spec_witness :
    (abaA1.current_round.accept_estimate 2 true).1 = .BroadcastEst true ∧
    abaA1.process_val_message { sender := 2, msg := { round := 0, message_type := .Val true } }
        netFailA true = .error .panic := by
  refine ⟨by decide, ?_⟩
  exact (@transport_error_handling_spec Nat Nat instDecidableEqNat instDecidableEqNat).2.1 abaA1
    { sender := 2, msg := { round := 0, message_type := .Val true } }
    netFailA true true (by decide) (fun _ => rfl)

/-- C8: in `CollectingConf`, when recording a fresh confirmation brings
the count of distinct signers for a feasible vector `F ⊆ values_r` to at
least `2f + 1` and the shares combine successfully, the round derives
`coin = (last byte of the hash of the combined signature) % 2 == 0` and:
if `|F| ≠ 1` the result is `Failed(coin)`; if `F = {v}` and `v = coin`,
the phase becomes `Finishing`, the estimate becomes `coin`, and the
result is `BroadcastFinalized(v)` the first time (`Accepted` when a
`Finish` for that value was already broadcast); if `v ≠ coin` the result
is `Failed(v)`. -/
theorem aba_conf_coin_spec {σ γ : Type} [DecidableEq σ]
    (rd : RoundData σ) (combine : List (Nat × σ) → Except Unit γ)
    (hashLastByte : γ → Nat) (sender : NodeId) (F : List Bool) (sig : σ)
    (cnt : Nat) (cd : ConfRoundData σ) (g : γ)
    (hst : rd.state = .CollectingConf)
    (hins : rd.conf_round_data.insert_confirmation sender F sig = .ok (cnt, cd))
    (hcnt : 2 * rd.f + 1 ≤ cnt)
    (hsub : subsetB F rd.values_r = true)
    (hcomb : combine ((cd.get_signatures_for_values F).map (fun p => (p.1, p.2))) = .ok g) :
    (F.length ≠ 1 →
       rd.accept_confirmation combine hashLastByte sender F sig =
         (.Failed (hashLastByte g % 2 == 0), { rd with conf_round_data := cd })) ∧
    (∀ v : Bool, F = [v] →
       (v = (hashLastByte g % 2 == 0) →
          (rd.accept_confirmation combine hashLastByte sender F sig).2.state = .Finishing ∧
          (rd.accept_confirmation combine hashLastByte sender F sig).2.estimate =
            (hashLastByte g % 2 == 0) ∧
          ((hashLastByte g % 2 == 0) ∉ rd.finish_round_data.broadcast_finish →
            (rd.accept_confirmation combine hashLastByte sender F sig).1 =
              .BroadcastFinalized v) ∧
          ((hashLastByte g % 2 == 0) ∈ rd.finish_round_data.broadcast_finish →
            (rd.accept_confirmation combine hashLastByte sender F sig).1 = .Accepted)) ∧
       (v ≠ (hashLastByte g % 2 == 0) →
          rd.accept_confirmation combine hashLastByte sender F sig =
            (.Failed v, { rd with conf_round_data := cd }))) := by
  have hred : rd.accept_confirmation combine hashLastByte sender F sig =
      rd.insert_confirmation combine hashLastByte sender F sig := by
    unfold RoundData.accept_confirmation
    rw [hst]
  rw [hred]
  unfold RoundData.insert_confirmation
  simp only [hins]
  rw [if_pos hcnt, if_pos (Or.inl hsub)]
  unfold RoundData.perform_coin_flip
  simp only [ConfRoundData.get_signatures_for_values] at hcomb ⊢
  simp only [hcomb]
  constructor
  · intro hF
    rw [if_pos hF]
  · intro v hFv
    subst hFv
    constructor
    · intro hv
      rw [if_neg (by simp)]
      have hco : ([v].headD false == (hashLastByte g % 2 == 0)) = true := by
        simp [hv]
      rw [if_pos hco]
      by_cases hmem : (hashLastByte g % 2 == 0) ∈ rd.finish_round_data.broadcast_finish
      · simp [FinishRoundData.try_register_broadcast, hsInsert, hmem]
      · simp [FinishRoundData.try_register_broadcast, hsInsert, hmem]
        exact hv.symm
    · intro hv
      rw [if_neg (by simp)]
      have hco : ([v].headD false == (hashLastByte g % 2 == 0)) = false := by
        simp only [List.headD]
        exact beq_eq_false_iff_ne.mpr hv
      rw [hco]
      simp

/-- C8 witness: the concrete `f = 1` round in `CollectingConf` with
`values_r = {true}` and two prior shares for `[true]`: a third share
reaches `2f + 1 = 3`, the (always-succeeding) combine plus an even hash
byte give `coin = true = v`, and the round moves to `Finishing` with
`BroadcastFinalized(true)`. -/
theorem aba_conf_coin_spec_witness :
    rdConf.state = .CollectingConf ∧
    (rdConf.accept_confirmation combineN hashEven 2 [true] 0).1 =
      .BroadcastFinalized true ∧
    (rdConf.accept_confirmation combineN hashEven 2 [true] 0).2.state = .Finishing ∧
    (rdConf.accept_confirmation combineN hashEven 2 [true] 0).2.estimate = true := by
  have h := (aba_conf_coin_spec rdConf combineN hashEven 2 [true] 0 3
      { received_conf := [([true], [(0, 0), (1, 0), (2, 0)])] } 0
      (by decide) (by decide) (by decide) (by decide) (by decide)).2 true rfl
  have h1 := h.1 (by decide)
  exact ⟨by decide, h1.2.2.1 (by decide), h1.1, h1.2.1⟩

/-- Helper: `accept_estimate` either leaves the phase unchanged or moves
`CollectingVal → CollectingAux`. -/
theorem accept_estimate_state_cases {σ : Type} [DecidableEq σ] (rd : RoundData σ)
    (p : NodeId) (b : Bool) :
    (rd.accept_estimate p b).2.state = rd.state ∨
      (rd.state = .CollectingVal ∧ (rd.accept_estimate p b).2.state = .CollectingAux) := by
  cases hst : rd.state with
  | CollectingVal =>
    simp only [RoundData.accept_estimate, RoundData.insert_estimate, hst]
    split
    · simp [hst]
    · split
      · simp
      · split <;> simp [hst]
  | CollectingAux => simp [RoundData.accept_estimate, hst]
  | CollectingConf => simp [RoundData.accept_estimate, hst]
  | Finishing => simp [RoundData.accept_estimate, hst]

/-- Helper: `accept_auxiliary` either leaves the phase unchanged or moves
`CollectingAux → CollectingConf`. -/
theorem accept_auxiliary_state_cases {σ : Type} [DecidableEq σ] (rd : RoundData σ)
    (p : NodeId) (l : List Bool) :
    (rd.accept_auxiliary p l).2.state = rd.state ∨
      (rd.state = .CollectingAux ∧ (rd.accept_auxiliary p l).2.state = .CollectingConf) := by
  cases hst : rd.state with
  | CollectingAux =>
    simp only [RoundData.accept_auxiliary, RoundData.insert_aux, hst]
    split
    · simp [hst]
    · split
      · simp
      · simp [hst]
  | CollectingVal => simp [RoundData.accept_auxiliary, hst]
  | CollectingConf => simp [RoundData.accept_auxiliary, hst]
  | Finishing => simp [RoundData.accept_auxiliary, hst]

/-- Helper: a successful `perform_coin_flip` either keeps the phase or
ends in `Finishing`. -/
theorem perform_coin_flip_state_cases {σ γ : Type} (rd : RoundData σ)
    (c : List (Nat × σ) → Except Unit γ) (h : γ → Nat) (F : List Bool)
    (sigs : List (NodeId × σ)) (r : RoundDataVoteAcceptResult × RoundData σ)
    (hr : rd.perform_coin_flip c h F sigs = .ok r) :
    r.2.state = rd.state ∨ r.2.state = .Finishing := by
  unfold RoundData.perform_coin_flip at hr
  cases hc : c (sigs.map fun p => (p.1, p.2)) with
  | error e => rw [hc] at hr; exact absurd hr (by simp)
  | ok g =>
    rw [hc] at hr
    simp only at hr
    split at hr
    · cases hr; left; rfl
    · split at hr
      · split at hr
        · cases hr; right; rfl
        · cases hr; right; rfl
      · cases hr; left; rfl

/-- Helper: `accept_confirmation` either leaves the phase unchanged or
moves `CollectingConf → Finishing`. -/
theorem accept_confirmation_state_cases {σ γ : Type} [DecidableEq σ] (rd : RoundData σ)
    (c : List (Nat × σ) → Except Unit γ) (h : γ → Nat)
    (p : NodeId) (F : List Bool) (sig : σ) :
    (rd.accept_confirmation c h p F sig).2.state = rd.state ∨
      (rd.state = .CollectingConf ∧
        (rd.accept_confirmation c h p F sig).2.state = .Finishing) := by
  cases hst : rd.state with
  | CollectingConf =>
    simp only [RoundData.accept_confirmation, RoundData.insert_confirmation, hst]
    cases hins : rd.conf_round_data.insert_confirmation p F sig with
    | error e => simp [hst]
    | ok pr =>
      rcases pr with ⟨vc, cd⟩
      simp only
      split
      · split
        · cases hflip : ({ rd with state := AsyncBinaryAgreementState.CollectingConf, conf_round_data := cd } : RoundData σ).perform_coin_flip c h F (cd.get_signatures_for_values F) with
          | ok r =>
            rcases perform_coin_flip_state_cases _ c h F _ r hflip with h1 | h1
            · left
              simp only [hflip]
              simpa using h1
            · right
              refine ⟨trivial, ?_⟩
              simp only [hflip]
              exact h1
          | error e =>
            left
            simp [hflip]
        · simp [hst]
      · simp [hst]
  | CollectingVal => simp [RoundData.accept_confirmation, hst]
  | CollectingAux => simp [RoundData.accept_confirmation, hst]
  | Finishing => simp [RoundData.accept_confirmation, hst]

/-- Helper: `accept_finish` never changes the phase. -/
theorem accept_finish_state_eq {σ : Type} [DecidableEq σ] (rd : RoundData σ)
    (p : NodeId) (b : Bool) :
    (rd.accept_finish p b).2.state = rd.state := by
  cases hst : rd.state with
  | Finishing =>
    simp only [RoundData.accept_finish, RoundData.insert_finish, hst]
    split
    · simp [hst]
    · split
      · simp [hst]
      · split <;> simp [hst]
  | CollectingVal => simp [RoundData.accept_finish, hst]
  | CollectingAux => simp [RoundData.accept_finish, hst]
  | CollectingConf => simp [RoundData.accept_finish, hst]

/-- Helper: one ABA vote-acceptance step never decreases the phase. -/
theorem aba_round_step_mono {σ γ : Type} [DecidableEq σ] (rd : RoundData σ)
    (s : RoundStep σ γ) :
    abaIdx rd.state ≤ abaIdx ((rd.apply_step s).state) := by
  cases s with
  | est p b =>
    rcases accept_estimate_state_cases rd p b with h | ⟨hv, hx⟩
    · simp only [RoundData.apply_step, h]
      exact le_refl _
    · simp only [RoundData.apply_step, hx, hv]
      decide
  | aux p l =>
    rcases accept_auxiliary_state_cases rd p l with h | ⟨hv, hx⟩
    · simp only [RoundData.apply_step, h]
      exact le_refl _
    · simp only [RoundData.apply_step, hx, hv]
      decide
  | conf p F sig c h =>
    rcases accept_confirmation_state_cases rd c h p F sig with h1 | ⟨hv, hx⟩
    · simp only [RoundData.apply_step, h1]
      exact le_refl _
    · simp only [RoundData.apply_step, hx, hv]
      decide
  | fin p b =>
    simp only [RoundData.apply_step, accept_finish_state_eq]
    exact le_refl _

/-- Helper: one RBC `process_message` call never decreases the phase. -/
theorem rbc_step_mono {ρ : Type} [DecidableEq ρ] (i : ReliableBroadcastInstance ρ)
    (m : StoredMessage (RBCMessage ρ)) (net : RBCMessage ρ → Except (List NodeId) Unit) :
    rbcIdx i.reliable_broadcast_state ≤
      rbcIdx ((i.process_message m net).2.1).reliable_broadcast_state := by
  rcases m with ⟨p, msg⟩
  cases msg with
  | Send msgs d =>
    simp only [ReliableBroadcastInstance.process_message]
    split
    · rename_i h
      rw [h.2]
      exact Nat.le_succ _
    · exact le_refl _
  | Echo d =>
    simp only [ReliableBroadcastInstance.process_message]
    split
    · rename_i h
      split
      · rw [h.2]
        exact Nat.le_succ _
      · exact le_refl _
    · exact le_refl _
  | Ready d =>
    simp only [ReliableBroadcastInstance.process_message]
    split
    · rename_i h
      split
      · rw [h.2]
        exact Nat.le_succ _
      · exact le_refl _
    · exact le_refl _

/-- C9: phases never regress.  Along every sequence of `process_message`
calls, an RBC instance's phase only moves forward in
`Init → Proposed → Echoed → Ready`; along every sequence of
`accept_estimate`/`accept_auxiliary`/`accept_confirmation`/`accept_finish`
calls, an ABA round's phase only moves forward in
`CollectingVal → CollectingAux → CollectingConf → Finishing`. -/
theorem phase_monotone_spec {ρ σ γ : Type} [DecidableEq ρ] [DecidableEq σ] :
    (∀ (i : ReliableBroadcastInstance ρ)
        (net : RBCMessage ρ → Except (List NodeId) Unit)
        (msgs : List (StoredMessage (RBCMessage ρ))),
        rbcIdx i.reliable_broadcast_state ≤
          rbcIdx ((i.run net msgs).reliable_broadcast_state)) ∧
    (∀ (rd : RoundData σ) (steps : List (RoundStep σ γ)),
        abaIdx rd.state ≤ abaIdx ((rd.run_steps steps).state)) := by
  constructor
  · intro i net msgs
    induction msgs generalizing i with
    | nil => exact le_refl _
    | cons m ms ih =>
      exact le_trans (rbc_step_mono i m net) (ih _)
  · intro rd steps
    induction steps generalizing rd with
    | nil => exact le_refl _
    | cons s ss ih =>
      exact le_trans (aba_round_step_mono rd s) (ih _)

/-- C3: when the committee-election subprotocol returns `Decided`, the
epoch finalizes it and installs the committee — and does nothing else:
`node_states` and `local_state` are returned exactly as they were.  In
particular no per-node execution state is created for any quorum member
and the local role is never set (the claimed initialization does not
exist in the code; `prepare_aba` is an empty stub). -/
theorem epoch_ce_decided_installs_committee_only
    {CE VR IR A RQ VRM IRM AM CEM CEErr AErr : Type}
    (ops : EpochOps CE VR IR A RQ VRM AM CEM CEErr AErr)
    (dr : DumboRound CE RQ VR IR A) (sender : NodeId) (ce_msg : CEM)
    (ce ce2 : CE) (committee : List NodeId)
    (hrun : dr.committee_election = .RunningCE ce)
    (hproc : ops.ceProcess ce { sender := sender, msg := ce_msg } = .ok (.Decided, ce2))
    (hfin : ops.ceFinalize ce2 = .ok committee) :
    dr.process_message ops
        ({ sender := sender, msg := .CommitteeElectionMessage ce_msg } :
          StoredMessage (DumboMessageType VRM IRM AM CEM)) =
      .ok (.MessageProcessed, { dr with committee_election := .Completed committee }) ∧
    ({ dr with committee_election := .Completed committee } :
        DumboRound CE RQ VR IR A).node_states = dr.node_states ∧
    ({ dr with committee_election := .Completed committee } :
        DumboRound CE RQ VR IR A).local_state = dr.local_state := by
  refine ⟨?_, rfl, rfl⟩
  show dr.process_ce_message ops sender ce_msg = _
  unfold DumboRound.process_ce_message
  rw [hrun]
  simp only [hproc, hfin]

/-- C3 witness: in the concrete fresh epoch, a deciding CE message
installs the committee `[0, 1]` but the per-node state map stays empty
and the local role stays `WaitingForCommittee`. -/
theorem epoch_ce_decided_installs_committee_only_witness :
    drW.process_message opsW
        ({ sender := 1, msg := .CommitteeElectionMessage () } :
          StoredMessage (DumboMessageType Unit Unit Unit Unit)) =
      .ok (.MessageProcessed, { drW with committee_election := .Completed [0, 1] }) ∧
    ({ drW with committee_election := .Completed [0, 1] } :
        DumboRound Nat Unit Unit Unit Unit).node_states = [] ∧
    ({ drW with committee_election := .Completed [0, 1] } :
        DumboRound Nat Unit Unit Unit Unit).local_state = .WaitingForCommittee := by
  refine ⟨?_, by decide, by decide⟩
  exact (epoch_ce_decided_installs_committee_only opsW drW 1 () 0 1 [0, 1]
    (by decide) rfl rfl).1

end IronDumbo
